import Mathlib

/-!
Verification development for the catsof.dev submission pipeline.

The JavaScript source (a Netlify function handling cat-photo submissions,
plus the Eleventy data file `src/_data/cats.js`) is shallowly embedded
below: every pure helper becomes a Lean function, network and platform
effects (DNS lookup, HTTP fetch, Cloudinary response, Airtable write,
`Date.parse`) become explicit oracle parameters, and thrown
`SubmissionError`s become `Except` values carrying the message and the
HTTP status code.
-/

namespace Catsof

/-- Embeds `SubmissionError`: a message plus an HTTP status code
(the constructor default in the source is 400). -/
structure Err where
  message : String
  statusCode : Nat
  deriving DecidableEq, Repr

/-- Decidable equality of `Except` results, for evaluating the embedding
on concrete inputs. -/
instance {ε α : Type} [DecidableEq ε] [DecidableEq α] :
    DecidableEq (Except ε α) := fun x y =>
  match x, y with
  | .ok a, .ok b =>
    if h : a = b then .isTrue (by rw [h])
    else .isFalse (fun he => by cases he; exact h rfl)
  | .error a, .error b =>
    if h : a = b then .isTrue (by rw [h])
    else .isFalse (fun he => by cases he; exact h rfl)
  | .ok _, .error _ => .isFalse (fun he => Except.noConfusion he)
  | .error _, .ok _ => .isFalse (fun he => Except.noConfusion he)

/-- `new SubmissionError(message)` — the default status code 400. -/
def submissionError (message : String) : Err := ⟨message, 400⟩

/-- `new SubmissionError(message, statusCode)`. -/
def submissionErrorWith (message : String) (statusCode : Nat) : Err :=
  ⟨message, statusCode⟩

/-! String primitives, implemented on character lists so that every
definition evaluates inside the kernel. Each models the corresponding
JavaScript string operation. -/

/-- `s.toLowerCase()`. -/
def strLower (s : String) : String := String.mk (s.toList.map Char.toLower)

/-- The whitespace class `trim` strips. -/
def isJsSpace (c : Char) : Bool :=
  decide (c = ' ' ∨ c = '\t' ∨ c = '\n' ∨ c = '\r' ∨ c = '\x0b' ∨ c = '\x0c')

/-- `s.trim()`. -/
def strTrim (s : String) : String :=
  String.mk (((s.toList.dropWhile isJsSpace).reverse.dropWhile isJsSpace).reverse)

/-- Split on a separator occurrence; the fuel argument (an upper bound on
the number of characters consumed) keeps the recursion structural. -/
def splitOnAux (sep : List Char) : Nat → List Char → List (List Char)
  | _, [] => [[]]
  | 0, l => [l]
  | fuel + 1, c :: rest =>
    if sep.isPrefixOf (c :: rest) then
      [] :: splitOnAux sep fuel ((c :: rest).drop sep.length)
    else
      match splitOnAux sep fuel rest with
      | [] => [[c]]
      | h :: t => (c :: h) :: t

/-- `s.split(sep)` for a nonempty separator (JavaScript and
`String.splitOn` agree on the shapes used here). -/
def strSplit (s : String) (sep : String) : List String :=
  if sep.toList = [] then [s]
  else (splitOnAux sep.toList s.toList.length s.toList).map String.mk

/-- `s.startsWith(p)`. -/
def strStartsWith (s : String) (p : String) : Bool :=
  p.toList.isPrefixOf s.toList

/-- `s.endsWith(p)`. -/
def strEndsWith (s : String) (p : String) : Bool :=
  p.toList.reverse.isPrefixOf s.toList.reverse

/-- Joining strings with a separator. -/
def strJoinWith (sep : String) (pieces : List String) : String :=
  String.mk (List.intercalate sep.toList (pieces.map String.toList))

/-- The numeric value of a nonempty all-digit string. -/
def digitsToNat (cs : List Char) : Nat :=
  cs.foldl (fun acc c => acc * 10 + (c.toNat - '0'.toNat)) 0

/-- `MAX_IMAGE_BYTES = 8 * 1024 * 1024`. -/
def MAX_IMAGE_BYTES : Nat := 8 * 1024 * 1024

/-- `MAX_REDIRECTS = 4`. -/
def MAX_REDIRECTS : Nat := 4

/-- `ALLOWED_IMAGE_MIME_TYPES`. -/
def ALLOWED_IMAGE_MIME_TYPES : List String :=
  ["image/jpeg", "image/png", "image/webp", "image/gif", "image/avif"]

/-- `cleanText(value)`: `(value || "").toString().trim()` on a string input. -/
def cleanText (value : String) : String := strTrim value

/-- `extensionFromMime(mimeType)`. -/
def extensionFromMime (mimeType : String) : String :=
  let lowerMime := strLower mimeType
  if lowerMime = "image/jpeg" then "jpg"
  else if lowerMime = "image/png" then "png"
  else if lowerMime = "image/webp" then "webp"
  else if lowerMime = "image/gif" then "gif"
  else if lowerMime = "image/avif" then "avif"
  else "jpg"

/-- Models Node `path.basename` (posix): strip trailing slashes, then keep
the part after the last slash. -/
def pathBasename (p : String) : String :=
  let chars := (p.toList.reverse.dropWhile (· = '/')).reverse
  (chars.reverse.takeWhile (· ≠ '/')).reverse |> String.mk

/-- The character class `[a-zA-Z0-9._-]` of `safeFilename`. -/
def isSafeFilenameChar (c : Char) : Bool :=
  decide (('a' ≤ c ∧ c ≤ 'z') ∨ ('A' ≤ c ∧ c ≤ 'Z') ∨ ('0' ≤ c ∧ c ≤ '9')
    ∨ c = '.' ∨ c = '_' ∨ c = '-')

/-- `safeFilename(filename)`. -/
def safeFilename (filename : String) : String :=
  let base := pathBasename (if filename = "" then "cat-image" else filename)
  let normalized := String.mk (base.toList.map
    (fun c => if isSafeFilenameChar c then c else '_'))
  if normalized = "" then "cat-image" else normalized

/-- `sanitizeImageMimeType(mimeType)`: strip parameters at the first `;`,
trim, lower-case, then allowlist-check. -/
def sanitizeImageMimeType (mimeType : String) : Except Err String :=
  let normalized := strLower (strTrim ((strSplit mimeType ";").headD ""))
  if ALLOWED_IMAGE_MIME_TYPES.contains normalized then
    .ok normalized
  else
    .error (submissionError "Only JPEG, PNG, WEBP, GIF, and AVIF images are allowed.")

/-- The normalization step of `sanitizeImageMimeType` on its own. -/
def normalizeMime (mimeType : String) : String :=
  strLower (strTrim ((strSplit mimeType ";").headD ""))

/-- Models JavaScript `Number(piece)` as used on dotted-quad pieces:
`Number("") = 0`, a plain decimal digit string parses, everything else is
`none` (NaN). -/
def jsNumber (s : String) : Option Nat :=
  if s = "" then some 0
  else if s.toList.all (fun c => decide ('0' ≤ c ∧ c ≤ '9')) then
    some (digitsToNat s.toList)
  else none

/-- The range checks of `isPrivateIPv4` on the numeric parts. -/
def privateIPv4Parts (a b : Nat) : Bool :=
  decide (a = 10 ∨ a = 127 ∨ (a = 169 ∧ b = 254) ∨ (a = 172 ∧ 16 ≤ b ∧ b ≤ 31)
    ∨ (a = 192 ∧ b = 168) ∨ a = 0)

/-- `isPrivateIPv4(ip)`. -/
def isPrivateIPv4 (ip : String) : Bool :=
  let parts := (strSplit ip ".").map jsNumber
  if parts.length ≠ 4 ∨ parts.any (·.isNone) then false
  else
    match parts with
    | [some a, some b, _, _] => privateIPv4Parts a b
    | _ => false

/-- `isPrivateIPv6(ip)`: a purely textual check on the lower-cased literal. -/
def isPrivateIPv6 (ip : String) : Bool :=
  let value := strLower ip
  value == "::1" || strStartsWith value "fc" || strStartsWith value "fd"
    || strStartsWith value "fe80:"

/-- One decimal group of a strict dotted-quad: nonempty digits, no leading
zero (unless the single digit 0), value at most 255. Models the grammar
Node `net.isIP` accepts for IPv4. -/
def validIPv4Piece (s : String) : Option Nat :=
  let cs := s.toList
  if cs ≠ [] ∧ cs.all (fun c => decide ('0' ≤ c ∧ c ≤ '9'))
      ∧ (cs.head? = some '0' → cs = ['0']) ∧ digitsToNat cs ≤ 255 then
    some (digitsToNat cs)
  else none

/-- Models Node `net.isIP`-style IPv4 literal parsing: exactly four strict
decimal pieces joined by dots. -/
def parseIPv4 (s : String) : Option (List Nat) :=
  let pieces := strSplit s "."
  if pieces.length = 4 then
    let vals := pieces.map validIPv4Piece
    if vals.all (·.isSome) then some (vals.map (·.getD 0)) else none
  else none

/-- One hexadecimal group of an IPv6 literal: one to four hex digits. -/
def validIPv6Group (s : String) : Option Nat :=
  let cs := s.toList
  if cs ≠ [] ∧ cs.length ≤ 4 ∧ cs.all (fun c =>
      decide (('0' ≤ c ∧ c ≤ '9') ∨ ('a' ≤ c.toLower ∧ c.toLower ≤ 'f'))) then
    some (cs.foldl (fun acc c =>
      acc * 16 + (if c.isDigit then c.toNat - '0'.toNat
        else c.toLower.toNat - 'a'.toNat + 10)) 0)
  else none

/-- Parses a colon-separated run of IPv6 groups, where the final group may
be an embedded dotted-quad (counting as two 16-bit groups). -/
def parseIPv6Side (s : String) : Option (List Nat) :=
  if s = "" then some []
  else
    let pieces := strSplit s ":"
    let rec go : List String → Option (List Nat)
      | [] => some []
      | [last] =>
        match validIPv6Group last with
        | some g => some [g]
        | none =>
          match parseIPv4 last with
          | some [a, b, c, d] => some [a * 256 + b, c * 256 + d]
          | _ => none
      | p :: rest =>
        match validIPv6Group p, go rest with
        | some g, some gs => some (g :: gs)
        | _, _ => none
    go pieces

/-- Models Node `net.isIP`-style IPv6 literal parsing: either eight groups
with no `::`, or a single `::` abbreviating at least one zero group.
Returns the eight 16-bit groups. -/
def parseIPv6 (s : String) : Option (List Nat) :=
  match strSplit s "::" with
  | [whole] =>
    match parseIPv6Side whole with
    | some gs => if gs.length = 8 then some gs else none
    | none => none
  | [left, right] =>
    match parseIPv6Side left, parseIPv6Side right with
    | some ls, some rs =>
      if ls.length + rs.length ≤ 7 then
        some (ls ++ List.replicate (8 - ls.length - rs.length) 0 ++ rs)
      else none
    | _, _ => none
  | _ => none

/-- Models Node `net.isIP`: 4 for an IPv4 literal, 6 for an IPv6 literal,
0 otherwise. -/
def netIsIP (s : String) : Nat :=
  if (parseIPv4 s).isSome then 4
  else if (parseIPv6 s).isSome then 6
  else 0

/-- `isPrivateIpAddress(ip)`: dispatch on `net.isIP`; an unrecognized
string is treated as private. -/
def isPrivateIpAddress (ip : String) : Bool :=
  let version := netIsIP ip
  if version = 4 then isPrivateIPv4 ip
  else if version = 6 then isPrivateIPv6 ip
  else true

/-- A parsed absolute URL, modelling the parts of the WHATWG `URL` object
the source reads: `protocol`, `hostname` (bracketed for IPv6 literals,
port stripped), `pathname`, plus the host-with-port and the original
string (`toString` is modelled as the original string; WHATWG
normalization is not modelled). -/
structure JsUrl where
  protocol : String
  hostname : String
  hostport : String
  pathname : String
  original : String
  deriving DecidableEq, Repr

/-- Scheme characters accepted by the URL model. -/
def isSchemeChar (c : Char) : Bool :=
  decide (('a' ≤ c ∧ c ≤ 'z') ∨ ('A' ≤ c ∧ c ≤ 'Z') ∨ ('0' ≤ c ∧ c ≤ '9')
    ∨ c = '+' ∨ c = '-' ∨ c = '.')

/-- Models `new URL(s)` for the hierarchical `scheme://host[:port][/path]`
shapes this pipeline handles; `none` models the constructor throwing. -/
def parseURL (s : String) : Option JsUrl :=
  match strSplit s "://" with
  | scheme :: restPieces =>
    if restPieces = [] then none
    else
      let rest := strJoinWith "://" restPieces
      if scheme = "" ∨ ¬ (scheme.toList.all isSchemeChar) then none
      else
        let hostport := String.mk (rest.toList.takeWhile
          (fun c => decide (c ≠ '/' ∧ c ≠ '?' ∧ c ≠ '#')))
        let afterHost := String.mk (rest.toList.drop hostport.length)
        let pathname :=
          if strStartsWith afterHost "/" then
            String.mk (afterHost.toList.takeWhile
              (fun c => decide (c ≠ '?' ∧ c ≠ '#')))
          else "/"
        let hostname :=
          if strStartsWith hostport "[" then
            if hostport.toList.contains ']' then
              String.mk (hostport.toList.takeWhile (· ≠ ']')) ++ "]"
            else ""
          else (strSplit hostport ":").headD ""
        if hostname = "" then none
        else some ⟨strLower scheme ++ ":", hostname, hostport, pathname, s⟩
  | [] => none

/-- Models `new URL(location, base).toString()`: an absolute location wins;
otherwise resolve root-relative or directory-relative against the base. -/
def resolveURL (location : String) (base : String) : String :=
  if (parseURL location).isSome then location
  else
    match parseURL base with
    | none => location
    | some u =>
      if strStartsWith location "/" then
        u.protocol ++ "//" ++ u.hostport ++ location
      else
        let dir := String.mk ((u.pathname.toList.reverse.dropWhile
          (· ≠ '/')).reverse)
        u.protocol ++ "//" ++ u.hostport ++ dir ++ location

/-- A DNS oracle: `dns.lookup(hostname, { all: true })`; `none` models the
lookup rejecting. -/
def DnsOracle : Type := String → Option (List String)

/-- `assertPublicUrl(urlString)`: parse, require http/https, reject
local-sounding hostnames, classify IP literals, otherwise resolve the
hostname and reject when any returned address is private. -/
def assertPublicUrl (dns : DnsOracle) (urlString : String) : Except Err String :=
  match parseURL urlString with
  | none => .error (submissionError "photoUrl must be a valid absolute URL.")
  | some parsedUrl =>
    if ¬ (parsedUrl.protocol = "https:" ∨ parsedUrl.protocol = "http:") then
      .error (submissionError "photoUrl must start with http:// or https://.")
    else
      let hostname := strLower parsedUrl.hostname
      if hostname = "localhost" ∨ strEndsWith hostname ".local" = true
          ∨ strEndsWith hostname ".localhost" = true then
        .error (submissionError "photoUrl cannot target local/internal hosts.")
      else if netIsIP hostname ≠ 0 then
        if isPrivateIpAddress hostname then
          .error (submissionError "photoUrl cannot target local/internal hosts.")
        else .ok parsedUrl.original
      else
        match dns hostname with
        | none => .error (submissionError "photoUrl host could not be resolved.")
        | some records =>
          if records.length = 0 then
            .error (submissionError "photoUrl host could not be resolved.")
          else if records.any isPrivateIpAddress then
            .error (submissionError "photoUrl cannot target local/internal hosts.")
          else .ok parsedUrl.original

/-- A response body: either an incremental stream of chunks (each a list
of bytes) or a whole-body buffer with no `getReader`. -/
inductive Body where
  | stream (chunks : List (List Nat))
  | whole (bytes : List Nat)
  deriving DecidableEq, Repr

/-- What `readResponseWithLimit` did: the result, whether
`reader.cancel()` was called, and how many chunks were consumed. -/
structure ReadOutcome where
  result : Except Err (List Nat)
  cancelled : Bool
  chunksRead : Nat
  deriving Repr

/-- The 413 error thrown when a body exceeds the ceiling. -/
def imageTooLargeErr : Err :=
  submissionErrorWith "Image is too large (max 8MB)." 413

/-- The streaming loop of `readResponseWithLimit`: accumulate chunks,
cancel and fail with the 413 error the moment the running total exceeds
`maxBytes`. -/
def readChunks (maxBytes : Nat) :
    List (List Nat) → List Nat → Nat → Nat → ReadOutcome
  | [], acc, _, n => ⟨.ok acc, false, n⟩
  | value :: rest, acc, total, n =>
    let total' := total + value.length
    if total' > maxBytes then ⟨.error imageTooLargeErr, true, n + 1⟩
    else readChunks maxBytes rest (acc ++ value) total' (n + 1)

/-- `readResponseWithLimit(response, maxBytes)`: the fallback whole-body
path checks the total length post hoc; the streaming path uses
`readChunks`. -/
def readResponseWithLimit (body : Body) (maxBytes : Nat) : ReadOutcome :=
  match body with
  | .whole bytes =>
    if bytes.length > maxBytes then ⟨.error imageTooLargeErr, false, 0⟩
    else ⟨.ok bytes, false, 0⟩
  | .stream chunks => readChunks maxBytes chunks [] 0 0

/-- The parts of a fetched HTTP response the source reads: status,
`location`, `content-type` and `content-length` headers (absent headers
are `none`), and the body. -/
structure HttpResponse where
  status : Nat
  location : Option String
  contentType : Option String
  contentLength : Option String
  body : Body
  deriving DecidableEq, Repr

/-- The outcome of one `fetch` call: an abort (timeout), another
transport failure, or a response. -/
inductive TransportOutcome where
  | timeout
  | netFailure
  | resp (r : HttpResponse)
  deriving DecidableEq, Repr

/-- The network environment of the fetcher: a DNS oracle and a transport
oracle mapping a URL to the outcome of fetching it once. -/
structure FetchEnv where
  dns : DnsOracle
  net : String → TransportOutcome

/-- `Number(response.headers.get("content-length") || "0")`. -/
def contentLengthNumber (h : Option String) : Option Nat :=
  jsNumber (h.getD "0")

/-- The fetcher's declared-size check: true when the parsed
`content-length` exceeds `MAX_IMAGE_BYTES` (NaN compares false). -/
def clExceeds (h : Option String) : Bool :=
  match contentLengthNumber h with
  | some n => n > MAX_IMAGE_BYTES
  | none => false

/-- The `{buffer, mimeType, filename}` result of a successful remote
fetch. -/
structure RemoteImage where
  buffer : List Nat
  mimeType : String
  filename : String
  deriving DecidableEq, Repr

/-- `getFilenameFromUrl(urlString, mimeType)`. -/
def getFilenameFromUrl (urlString : String) (mimeType : String) : String :=
  let pathname := ((parseURL urlString).map (·.pathname)).getD ""
  let fromPath := safeFilename (pathBasename pathname)
  if fromPath.toList.contains '.' then fromPath
  else fromPath ++ "." ++ extensionFromMime mimeType

/-- The redirect loop of `fetchImageFromUrl`. `fuel` counts the
remaining iterations of `for (redirectCount = 0; redirectCount <=
MAX_REDIRECTS; ...)`; the first component of the result lists, in order,
every URL the Host-Safety Validator was run on. -/
def fetchLoop (env : FetchEnv) :
    String → Nat → List String → List String × Except Err RemoteImage
  | _, 0, log => (log, .error (submissionError "photoUrl has too many redirects."))
  | currentUrl, fuel + 1, log =>
    let log' := log ++ [currentUrl]
    match assertPublicUrl env.dns currentUrl with
    | .error e => (log', .error e)
    | .ok normalized =>
      match env.net normalized with
      | .timeout =>
        (log', .error (submissionError "Timed out while fetching photoUrl."))
      | .netFailure =>
        (log', .error (submissionError "Could not fetch photoUrl."))
      | .resp r =>
        if 300 ≤ r.status ∧ r.status < 400 then
          match r.location with
          | none =>
            (log', .error (submissionError "photoUrl redirect is missing location."))
          | some location => fetchLoop env (resolveURL location normalized) fuel log'
        else if ¬ (200 ≤ r.status ∧ r.status < 300) then
          (log', .error (submissionError
            ("photoUrl returned HTTP " ++ toString r.status ++ ".")))
        else if clExceeds r.contentLength then
          (log', .error imageTooLargeErr)
        else
          match sanitizeImageMimeType (r.contentType.getD "") with
          | .error e => (log', .error e)
          | .ok mimeType =>
            match (readResponseWithLimit r.body MAX_IMAGE_BYTES).result with
            | .error e => (log', .error e)
            | .ok buffer =>
              if buffer.length = 0 then
                (log', .error (submissionError "Fetched image is empty."))
              else
                (log', .ok ⟨buffer, mimeType, getFilenameFromUrl normalized mimeType⟩)

/-- `fetchImageFromUrl(urlString)` together with its validation log. -/
def fetchImageFromUrl (env : FetchEnv) (urlString : String) :
    List String × Except Err RemoteImage :=
  let currentUrl := cleanText urlString
  if currentUrl = "" then
    ([], .error (submissionError "photoUrl is required when no file is uploaded."))
  else fetchLoop env currentUrl (MAX_REDIRECTS + 1) []

/-- `sub.includes(...)`-style substring test (JavaScript
`String.prototype.includes`). -/
def strIncludes (h : String) (n : String) : Bool :=
  (List.range (h.toList.length + 1)).any
    (fun i => n.toList.isPrefixOf (h.toList.drop i))

/-- A multipart file value (`File`): declared name, declared type,
declared size, and the bytes `arrayBuffer()` yields. -/
structure FileVal where
  name : String
  type : String
  size : Nat
  content : List Nat
  deriving DecidableEq, Repr

/-- One multipart form entry: a string field or a file. -/
inductive FormValue where
  | str (s : String)
  | file (f : FileVal)
  deriving DecidableEq, Repr

/-- The plain-string fields of a parsed body, as a key/value list. -/
abbrev Fields : Type := List (String × String)

/-- Reading `fields[key]` with JavaScript-object semantics (missing key
is falsy, modelled as `""`). -/
def getField (fields : Fields) (key : String) : String :=
  ((fields.find? (fun p => p.1 == key)).map (·.2)).getD ""

/-- Writing `fields[key] = value`. -/
def setField (fields : Fields) (key value : String) : Fields :=
  if fields.any (fun p => p.1 == key) then
    fields.map (fun p => if p.1 == key then (key, value) else p)
  else fields ++ [(key, value)]

/-- The accepted `photoFile` record built by `parseBody`. -/
structure PhotoFile where
  filename : String
  mimeType : String
  size : Nat
  buffer : List Nat
  deriving DecidableEq, Repr

/-- The multipart loop of `parseBody`: string entries populate `fields`;
a file entry is ignored unless its key is `photoFile` and its size is
nonzero; an oversized file fails with 413 and a bad declared type fails
through the MIME gate. -/
def parseMultipartEntries :
    List (String × FormValue) → Fields → Option PhotoFile →
      Except Err (Fields × Option PhotoFile)
  | [], fields, photoFile => .ok (fields, photoFile)
  | (key, .str value) :: rest, fields, photoFile =>
    parseMultipartEntries rest (setField fields key value) photoFile
  | (key, .file f) :: rest, fields, photoFile =>
    if key ≠ "photoFile" ∨ f.size = 0 then
      parseMultipartEntries rest fields photoFile
    else if f.size > MAX_IMAGE_BYTES then
      .error (submissionErrorWith "Uploaded image is too large (max 8MB)." 413)
    else
      match sanitizeImageMimeType f.type with
      | .error e => .error e
      | .ok mimeType =>
        parseMultipartEntries rest fields (some
          ⟨safeFilename (if f.name = "" then "upload." ++ extensionFromMime mimeType
             else f.name),
           mimeType, f.size, f.content⟩)

/-- The inbound request: method, the two headers the source reads, and
the body under each of the three supported encodings (the multipart and
JSON decoders — `Response.formData()` and `JSON.parse` — are modelled as
pre-decoded payloads, with `none` for a decoder throw). -/
structure Event where
  httpMethod : String
  contentTypeHeader : String
  acceptHeader : String
  multipartEntries : Option (List (String × FormValue))
  jsonFields : Option Fields
  urlencodedFields : Fields

/-- A `parseBody` failure: a thrown `SubmissionError`, or any other
throw (caught as a generic invalid-payload 400 in the handler). -/
inductive ParseFailure where
  | submission (e : Err)
  | generic
  deriving DecidableEq, Repr

/-- `parseBody(event)`: dispatch on the `content-type` header. -/
def parseBody (event : Event) : Except ParseFailure (Fields × Option PhotoFile) :=
  if strIncludes event.contentTypeHeader "multipart/form-data" then
    match event.multipartEntries with
    | none => .error .generic
    | some entries =>
      match parseMultipartEntries entries [] none with
      | .error e => .error (.submission e)
      | .ok r => .ok r
  else if strIncludes event.contentTypeHeader "application/json" then
    match event.jsonFields with
    | none => .error .generic
    | some fields => .ok (fields, none)
  else .ok (event.urlencodedFields, none)

/-- `getCloudinaryConfig()`'s result record. -/
structure CloudinaryConfig where
  cloudName : String
  apiKey : String
  apiSecret : String
  folder : String
  deriving DecidableEq, Repr

/-- What the Cloudinary endpoint answered: transport-level success and
the optional `secure_url` field of the response JSON. -/
structure CloudinaryOutcome where
  ok : Bool
  secureUrl : Option String
  deriving DecidableEq, Repr

/-- The record POSTed to Airtable (`payload.fields`, with `Status`
always `"Pending"`). -/
structure AirtablePayload where
  catName : String
  humanName : String
  developerUrl : String
  photoUrl : String
  story : String
  status : String
  deriving DecidableEq, Repr

/-- An externally visible side effect of one handler run. -/
inductive Action where
  | upload
  | storeWrite (payload : AirtablePayload)
  deriving DecidableEq, Repr

/-- The whole environment of `handler`: configuration variables (`""`
models an unset variable), the network oracles, the Cloudinary response,
and the Airtable write outcome (`none` models the write fetch
throwing). -/
structure HandlerEnv where
  airtableToken : String
  airtableBaseId : String
  airtableTableName : String
  cloudName : String
  apiKey : String
  apiSecret : String
  folderVar : String
  dns : DnsOracle
  net : String → TransportOutcome
  cloudinary : CloudinaryOutcome
  airtableOk : Option Bool
  airtableErrorDetails : String

/-- The fetcher's view of the environment. -/
def HandlerEnv.fetchEnv (env : HandlerEnv) : FetchEnv := ⟨env.dns, env.net⟩

/-- `getCloudinaryConfig()`. -/
def getCloudinaryConfig (env : HandlerEnv) : Except Err CloudinaryConfig :=
  let folder := strTrim (if env.folderVar = "" then "catsof-dev" else env.folderVar)
  if env.cloudName = "" ∨ env.apiKey = "" ∨ env.apiSecret = "" then
    .error (submissionErrorWith "Missing Cloudinary configuration." 500)
  else .ok ⟨env.cloudName, env.apiKey, env.apiSecret, folder⟩

/-- `uploadToCloudinary(image, cloudinaryConfig)`: the signed multipart
POST itself is the oracle `env.cloudinary`; a non-2xx answer fails with
502, a success body without `secure_url` fails with 502. -/
def uploadToCloudinary (env : HandlerEnv) (image : RemoteImage)
    (config : CloudinaryConfig) : Except Err String :=
  if ¬ env.cloudinary.ok then
    .error (submissionErrorWith "Image upload to Cloudinary failed." 502)
  else
    match env.cloudinary.secureUrl with
    | none => .error (submissionErrorWith "Cloudinary response missing secure_url." 502)
    | some u => .ok u

/-- The `{buffer, mimeType, filename}` view of an accepted upload. -/
def PhotoFile.toImage (pf : PhotoFile) : RemoteImage :=
  ⟨pf.buffer, pf.mimeType, pf.filename⟩

/-- `resolveCanonicalPhotoUrl({photoUrl, photoFile, cloudinaryConfig})`,
together with the upload actions it performed. -/
def resolveCanonicalPhotoUrl (env : HandlerEnv) (photoUrl : String)
    (photoFile : Option PhotoFile) (config : CloudinaryConfig) :
    List Action × Except Err String :=
  match photoFile with
  | some pf =>
    if pf.buffer.length ≠ 0 then
      ([.upload], uploadToCloudinary env pf.toImage config)
    else
      match fetchImageFromUrl env.fetchEnv photoUrl with
      | (_, .error e) => ([], .error e)
      | (_, .ok remoteImage) => ([.upload], uploadToCloudinary env remoteImage config)
  | none =>
    match fetchImageFromUrl env.fetchEnv photoUrl with
    | (_, .error e) => ([], .error e)
    | (_, .ok remoteImage) => ([.upload], uploadToCloudinary env remoteImage config)

/-- A handler response plus the side effects performed. -/
structure HandlerResult where
  statusCode : Nat
  body : String
  headers : List (String × String)
  actions : List Action
  deriving DecidableEq, Repr

/-- The JSON success body `{ok: true, photoUrl}`. -/
def jsonOkBody (canonicalPhotoUrl : String) : String :=
  "\x7b\"ok\":true,\"photoUrl\":\"" ++ canonicalPhotoUrl ++ "\"\x7d"

/-- `exports.handler(event)`. The Airtable error body's
`formatAirtableError` text is abstracted as `env.airtableErrorDetails`. -/
def handler (env : HandlerEnv) (event : Event) : HandlerResult :=
  if event.httpMethod ≠ "POST" then ⟨405, "Method Not Allowed", [], []⟩
  else if env.airtableToken = "" ∨ env.airtableBaseId = "" then
    ⟨500, "Missing Airtable configuration.", [], []⟩
  else
    match parseBody event with
    | .error (.submission e) => ⟨e.statusCode, e.message, [], []⟩
    | .error .generic => ⟨400, "Invalid form payload.", [], []⟩
    | .ok (fields, photoFile) =>
      if getField fields "website" ≠ "" then
        ⟨303, "", [("Location", "/thanks/")], []⟩
      else
        let catName := cleanText (getField fields "catName")
        let humanName := cleanText (getField fields "humanName")
        let photoUrl := cleanText (getField fields "photoUrl")
        if catName = "" ∨ humanName = "" then
          ⟨400, "catName and humanName are required.", [], []⟩
        else if photoFile = none ∧ photoUrl = "" then
          ⟨400, "Provide either photoFile or photoUrl.", [], []⟩
        else
          match getCloudinaryConfig env with
          | .error e => ⟨e.statusCode, e.message, [], []⟩
          | .ok config =>
            match resolveCanonicalPhotoUrl env photoUrl photoFile config with
            | (acts, .error e) => ⟨e.statusCode, e.message, [], acts⟩
            | (acts, .ok canonicalPhotoUrl) =>
              let payload : AirtablePayload :=
                ⟨catName, humanName, cleanText (getField fields "devUrl"),
                 canonicalPhotoUrl, cleanText (getField fields "story"), "Pending"⟩
              let acts' := acts ++ [.storeWrite payload]
              match env.airtableOk with
              | none => ⟨500, "Could not save submission.", [], acts'⟩
              | some false =>
                ⟨500, "Could not save submission. " ++ env.airtableErrorDetails,
                 [("Content-Type", "text/plain")], acts'⟩
              | some true =>
                if strIncludes event.acceptHeader "application/json" then
                  ⟨200, jsonOkBody canonicalPhotoUrl,
                   [("Content-Type", "application/json")], acts'⟩
                else ⟨303, "", [("Location", "/thanks/")], acts'⟩

/-- An Airtable record as `src/_data/cats.js` receives it: id, optional
`createdTime`, and the optional field values it reads. -/
structure AirtableRecord where
  id : String
  createdTime : Option String
  fieldCatName : Option String
  fieldHumanName : Option String
  fieldDeveloperUrl : Option String
  fieldPhotoUrl : Option String
  fieldStory : Option String
  deriving DecidableEq, Repr

/-- A mapped row of the Eleventy data file. -/
structure CatRow where
  id : String
  createdTime : String
  name : String
  human : String
  developerUrl : String
  photoUrl : String
  story : String
  deriving DecidableEq, Repr

/-- The `.map` step of `cats.js`, with its `||` defaults. -/
def toCatRow (record : AirtableRecord) : CatRow :=
  ⟨record.id,
   record.createdTime.getD "",
   (record.fieldCatName.getD ""
     |> fun s => if s = "" then "Unnamed Cat" else s),
   (record.fieldHumanName.getD ""
     |> fun s => if s = "" then "Anonymous Developer" else s),
   record.fieldDeveloperUrl.getD "",
   record.fieldPhotoUrl.getD "",
   record.fieldStory.getD ""⟩

/-- A `Date.parse` oracle: `none` models NaN. -/
def DateParse : Type := String → Option Int

/-- The sort comparator `(a, b) => Date.parse(b.createdTime) -
Date.parse(a.createdTime)`, with a NaN result treated as 0 the way
`Array.prototype.sort` does. -/
def catCompare (dateParse : DateParse) (a b : CatRow) : Int :=
  match dateParse a.createdTime, dateParse b.createdTime with
  | some x, some y => y - x
  | _, _ => 0

/-- "`a` stays left of `b`": comparator at most 0. -/
def catLe (dateParse : DateParse) (a b : CatRow) : Bool :=
  catCompare dateParse a b ≤ 0

/-- Stable insertion of one element into a comparator-sorted list
(models one placement of `Array.prototype.sort` on a consistent
comparator). -/
def jsOrderedInsert (leB : α → α → Bool) (x : α) : List α → List α
  | [] => [x]
  | y :: ys => if leB x y then x :: y :: ys else y :: jsOrderedInsert leB x ys

/-- Stable insertion sort: the model of `Array.prototype.sort` with a
consistent comparator. -/
def jsSort (leB : α → α → Bool) : List α → List α
  | [] => []
  | x :: xs => jsOrderedInsert leB x (jsSort leB xs)

/-- The record transform of `cats.js`: map, sort newest-first, then drop
rows without a photo URL. -/
def catsTransform (dateParse : DateParse) (records : List AirtableRecord) :
    List CatRow :=
  (jsSort (catLe dateParse) (records.map toCatRow)).filter
    (fun cat => cat.photoUrl ≠ "")

/-! ## Theorems -/

/-- The unsupported-media-type error value of the gate. -/
def unsupportedMediaErr : Err :=
  submissionError "Only JPEG, PNG, WEBP, GIF, and AVIF images are allowed."

/-- The gate, rewritten through `normalizeMime`. -/
lemma sanitizeImageMimeType_eq (raw : String) :
    sanitizeImageMimeType raw =
      if ALLOWED_IMAGE_MIME_TYPES.contains (normalizeMime raw) then
        .ok (normalizeMime raw)
      else .error unsupportedMediaErr := rfl

/-- Membership in the allowlist, spelled out. -/
lemma allowed_mime_iff (m : String) :
    ALLOWED_IMAGE_MIME_TYPES.contains m = true ↔
      (m = "image/jpeg" ∨ m = "image/png" ∨ m = "image/webp"
        ∨ m = "image/gif" ∨ m = "image/avif") := by
  simp [ALLOWED_IMAGE_MIME_TYPES, List.contains]

/-- C4: the MIME policy gate normalizes by dropping everything from the
first `;`, trimming and lower-casing, succeeds exactly on the five
allowlisted types, returns only the normalized type, and rejects
everything else with the unsupported-media-type error. The same
`sanitizeImageMimeType` definition is the gate called from both
`parseMultipartEntries` (uploaded files) and `fetchLoop` (remote
`content-type` headers). -/
theorem claim_C4_mime_gate (raw : String) :
    (sanitizeImageMimeType raw = .ok (normalizeMime raw)
      ↔ (normalizeMime raw = "image/jpeg" ∨ normalizeMime raw = "image/png"
          ∨ normalizeMime raw = "image/webp" ∨ normalizeMime raw = "image/gif"
          ∨ normalizeMime raw = "image/avif"))
  ∧ (∀ m, sanitizeImageMimeType raw = .ok m → m = normalizeMime raw)
  ∧ (¬ (normalizeMime raw = "image/jpeg" ∨ normalizeMime raw = "image/png"
          ∨ normalizeMime raw = "image/webp" ∨ normalizeMime raw = "image/gif"
          ∨ normalizeMime raw = "image/avif") →
      sanitizeImageMimeType raw = .error unsupportedMediaErr) := by
  rw [← allowed_mime_iff]
  rcases hc : ALLOWED_IMAGE_MIME_TYPES.contains (normalizeMime raw) with _ | _
  · refine ⟨?_, ?_, ?_⟩
    · rw [sanitizeImageMimeType_eq, hc]
      simp
    · intro m h
      rw [sanitizeImageMimeType_eq, hc] at h
      simp at h
    · intro _
      rw [sanitizeImageMimeType_eq, hc]
      simp
  · refine ⟨?_, ?_, ?_⟩
    · rw [sanitizeImageMimeType_eq, hc]
      simp
    · intro m h
      rw [sanitizeImageMimeType_eq, hc] at h
      simpa using h.symm
    · intro h
      exact absurd rfl h

/-- Witness for C4: the gate accepts `IMAGE/JPEG; charset=utf-8` as
`image/jpeg` and rejects `text/html` and `image/svg+xml`. -/
theorem claim_C4_mime_gate_witness :
    sanitizeImageMimeType "IMAGE/JPEG; charset=utf-8" = .ok "image/jpeg"
  ∧ sanitizeImageMimeType "text/html" = .error unsupportedMediaErr
  ∧ sanitizeImageMimeType "image/svg+xml" = .error unsupportedMediaErr := by
  refine ⟨?_, ?_, ?_⟩
  · have h := (claim_C4_mime_gate "IMAGE/JPEG; charset=utf-8").1.mpr
      (Or.inl (by decide))
    have e : normalizeMime "IMAGE/JPEG; charset=utf-8" = "image/jpeg" := by decide
    rw [e] at h
    exact h
  · exact (claim_C4_mime_gate "text/html").2.2 (by decide)
  · exact (claim_C4_mime_gate "image/svg+xml").2.2 (by decide)

/-- The spec's `fe80::/10` membership test on the eight parsed 16-bit
groups: the leading group lies between 0xfe80 and 0xfebf. Stated from
the spec's range list, to compare against the classifier. -/
def inLinkLocalSlash10 (groups : List Nat) : Bool :=
  match groups with
  | g :: _ => decide (0xfe80 ≤ g ∧ g ≤ 0xfebf)
  | [] => false

/-- Counterexample to C7 as stated: `fe81::1` is a well-formed IPv6
literal inside `fe80::/10`, yet the classifier calls it public, because
the IPv6 check is the textual prefix `"fe80:"`. -/
theorem claim_C7_counterexample :
    netIsIP "fe81::1" = 6
  ∧ parseIPv6 "fe81::1" = some [0xfe81, 0, 0, 0, 0, 0, 0, 1]
  ∧ inLinkLocalSlash10 [0xfe81, 0, 0, 0, 0, 0, 0, 1] = true
  ∧ isPrivateIpAddress "fe81::1" = false := by decide

/-- A valid dotted-quad piece is also accepted by `Number`. -/
lemma jsNumber_of_validIPv4Piece {p : String} {v : Nat}
    (h : validIPv4Piece p = some v) : jsNumber p = some v := by
  simp only [validIPv4Piece] at h
  split at h
  · rename_i hcond
    obtain ⟨hne, hdig, -, -⟩ := hcond
    have hpne : p ≠ "" := by
      intro he
      rw [he] at hne
      exact hne rfl
    simp only [jsNumber, if_neg hpne, hdig, if_pos]
    exact h
  · exact Option.noConfusion h

/-- Destructing a successful strict IPv4 parse into its four pieces. -/
lemma parseIPv4_quad {s : String} {gs : List Nat} (h : parseIPv4 s = some gs) :
    ∃ p0 p1 p2 p3 a b c d, strSplit s "." = [p0, p1, p2, p3]
      ∧ validIPv4Piece p0 = some a ∧ validIPv4Piece p1 = some b
      ∧ validIPv4Piece p2 = some c ∧ validIPv4Piece p3 = some d
      ∧ gs = [a, b, c, d] := by
  simp only [parseIPv4] at h
  rcases hP : strSplit s "." with _ | ⟨p0, _ | ⟨p1, _ | ⟨p2, _ | ⟨p3, _ | ⟨p4, ps⟩⟩⟩⟩⟩ <;>
    rw [hP] at h <;> simp only [List.length] at h
  · simp at h
  · simp at h
  · simp at h
  · simp at h
  · rw [if_pos trivial] at h
    split at h
    · rename_i hall
      simp only [List.map_cons, List.map_nil, List.all_cons, List.all_nil,
        Bool.and_true, Bool.and_eq_true] at hall
      obtain ⟨h0, h1, h2, h3⟩ := hall
      rw [Option.isSome_iff_exists] at h0 h1 h2 h3
      obtain ⟨a, ha⟩ := h0
      obtain ⟨b, hb⟩ := h1
      obtain ⟨c, hc⟩ := h2
      obtain ⟨d, hd⟩ := h3
      refine ⟨p0, p1, p2, p3, a, b, c, d, rfl, ha, hb, hc, hd, ?_⟩
      simp only [List.map_cons, List.map_nil, ha, hb, hc, hd] at h
      simpa using h.symm
    · exact Option.noConfusion h
  · simp at h

/-- C7 (amended): the classifier is exact for IPv4 literals — private is
precisely membership in 10/8, 127/8, 169.254/16, 172.16/12, 192.168/16
or 0/8 — while for IPv6 literals it is the textual test: exactly `::1`,
or a lower-cased literal starting with `fc`, `fd` or `fe80:`; fe80::/10
addresses whose literal does not start with `fe80:` (such as `fe81::1`)
are not classified private. -/
theorem claim_C7_amended (s : String) :
    (∀ gs, parseIPv4 s = some gs →
        ∃ a b c d, gs = [a, b, c, d]
          ∧ (isPrivateIpAddress s = true ↔
              (a = 10 ∨ a = 127 ∨ (a = 169 ∧ b = 254)
                ∨ (a = 172 ∧ 16 ≤ b ∧ b ≤ 31) ∨ (a = 192 ∧ b = 168) ∨ a = 0)))
  ∧ (netIsIP s = 6 →
      (isPrivateIpAddress s = true ↔
        (strLower s = "::1" ∨ strStartsWith (strLower s) "fc" = true
          ∨ strStartsWith (strLower s) "fd" = true
          ∨ strStartsWith (strLower s) "fe80:" = true))) := by
  constructor
  · intro gs h
    obtain ⟨p0, p1, p2, p3, a, b, c, d, hsplit, h0, h1, h2, h3, hgs⟩ := parseIPv4_quad h
    have hsome : (parseIPv4 s).isSome = true := by rw [h]; rfl
    have h4 : netIsIP s = 4 := by simp [netIsIP, hsome]
    refine ⟨a, b, c, d, hgs, ?_⟩
    have hpriv : isPrivateIpAddress s = isPrivateIPv4 s := by
      simp [isPrivateIpAddress, h4]
    rw [hpriv]
    have : isPrivateIPv4 s = privateIPv4Parts a b := by
      simp only [isPrivateIPv4, hsplit, List.map_cons, List.map_nil,
        jsNumber_of_validIPv4Piece h0, jsNumber_of_validIPv4Piece h1,
        jsNumber_of_validIPv4Piece h2, jsNumber_of_validIPv4Piece h3]
      simp
    rw [this]
    simp [privateIPv4Parts]
  · intro h6
    have h4 : netIsIP s ≠ 4 := by rw [h6]; decide
    have hpriv : isPrivateIpAddress s = isPrivateIPv6 s := by
      simp [isPrivateIpAddress, h6]
    rw [hpriv]
    simp only [isPrivateIPv6, Bool.or_eq_true, beq_iff_eq]
    tauto

/-- Witness for C7's amended theorem: `10.0.0.1` is private through the
IPv4 ranges and `fe80::1` is private through the `fe80:` prefix. -/
theorem claim_C7_amended_witness :
    isPrivateIpAddress "10.0.0.1" = true ∧ isPrivateIpAddress "fe80::1" = true := by
  constructor
  · obtain ⟨a, b, c, d, hg, hiff⟩ :=
      (claim_C7_amended "10.0.0.1").1 [10, 0, 0, 1] (by decide)
    have ha : a = 10 := by
      have := hg
      simp only [List.cons.injEq, and_true] at this
      exact this.1.symm
    exact hiff.mpr (Or.inl ha)
  · exact ((claim_C7_amended "fe80::1").2 (by decide)).mpr
      (Or.inr (Or.inr (Or.inr (by decide))))

/-- `readChunks` on a stream that fits within the limit: every chunk is
consumed, the bytes are concatenated, and the stream is not cancelled. -/
lemma readChunks_ok (maxBytes : Nat) :
    ∀ (chunks : List (List Nat)) (acc : List Nat) (total n : Nat),
      total + (chunks.map List.length).sum ≤ maxBytes →
      readChunks maxBytes chunks acc total n =
        ⟨.ok (acc ++ chunks.flatten), false, n + chunks.length⟩
  | [], acc, total, n, _ => by simp [readChunks]
  | c :: rest, acc, total, n, h => by
    have hc : ¬ (total + c.length > maxBytes) := by
      simp only [List.map_cons, List.sum_cons] at h
      omega
    have hrest : (total + c.length) + (rest.map List.length).sum ≤ maxBytes := by
      simp only [List.map_cons, List.sum_cons] at h
      omega
    simp only [readChunks, if_neg hc,
      readChunks_ok maxBytes rest (acc ++ c) (total + c.length) (n + 1) hrest,
      List.flatten_cons, List.append_assoc, List.length_cons]
    congr 1
    omega

/-- `readChunks` on a stream that overruns the limit: it cancels and
fails with the 413 error after consuming exactly the shortest exceeding
prefix of the stream. -/
lemma readChunks_exceed (maxBytes : Nat) :
    ∀ (chunks : List (List Nat)) (acc : List Nat) (total n : Nat),
      total ≤ maxBytes →
      total + (chunks.map List.length).sum > maxBytes →
      ∃ k, 1 ≤ k ∧ k ≤ chunks.length
        ∧ readChunks maxBytes chunks acc total n =
            ⟨.error imageTooLargeErr, true, n + k⟩
        ∧ total + ((chunks.take k).map List.length).sum > maxBytes
        ∧ ∀ j < k, total + ((chunks.take j).map List.length).sum ≤ maxBytes
  | [], _, total, n, hle, hgt => by simp at hgt; omega
  | c :: rest, acc, total, n, hle, hgt => by
    by_cases hc : total + c.length > maxBytes
    · refine ⟨1, le_refl 1, by simp, ?_, ?_, ?_⟩
      · simp [readChunks, if_pos hc]
      · simpa using hc
      · intro j hj
        interval_cases j
        simpa using hle
    · have hle' : total + c.length ≤ maxBytes := by omega
      have hgt' : (total + c.length) + (rest.map List.length).sum > maxBytes := by
        simp only [List.map_cons, List.sum_cons] at hgt
        omega
      obtain ⟨k, hk1, hklen, heq, hover, hmin⟩ :=
        readChunks_exceed maxBytes rest (acc ++ c) (total + c.length) (n + 1) hle' hgt'
      refine ⟨k + 1, by omega, by simp only [List.length_cons]; omega, ?_, ?_, ?_⟩
      · simp only [readChunks, if_neg hc, heq]
        congr 1
        omega
      · simp only [List.take_succ_cons, List.map_cons, List.sum_cons]
        omega
      · intro j hj
        match j with
        | 0 => simpa using hle
        | j' + 1 =>
          have := hmin j' (by omega)
          simp only [List.take_succ_cons, List.map_cons, List.sum_cons]
          omega

/-- C3: the size-limited reader fails with `ImageTooLargeError` exactly
when the cumulative stream size exceeds `maxBytes`, cancelling the
stream after consuming precisely the shortest exceeding prefix (the
declared `content-length` plays no part — the reader takes none); the
whole-body fallback reads everything and checks the total length post
hoc. -/
theorem claim_C3_read_limit (chunks : List (List Nat)) (bytes : List Nat)
    (maxBytes : Nat) :
    ((chunks.map List.length).sum > maxBytes →
        ∃ k, 1 ≤ k ∧ k ≤ chunks.length
          ∧ readResponseWithLimit (.stream chunks) maxBytes
              = ⟨.error imageTooLargeErr, true, k⟩
          ∧ ((chunks.take k).map List.length).sum > maxBytes
          ∧ ∀ j < k, ((chunks.take j).map List.length).sum ≤ maxBytes)
  ∧ ((chunks.map List.length).sum ≤ maxBytes →
        readResponseWithLimit (.stream chunks) maxBytes
          = ⟨.ok chunks.flatten, false, chunks.length⟩)
  ∧ (bytes.length > maxBytes →
        readResponseWithLimit (.whole bytes) maxBytes
          = ⟨.error imageTooLargeErr, false, 0⟩)
  ∧ (bytes.length ≤ maxBytes →
        readResponseWithLimit (.whole bytes) maxBytes = ⟨.ok bytes, false, 0⟩) := by
  refine ⟨?_, ?_, ?_, ?_⟩
  · intro h
    obtain ⟨k, hk1, hklen, heq, hover, hmin⟩ :=
      readChunks_exceed maxBytes chunks [] 0 0 (Nat.zero_le _) (by omega)
    refine ⟨k, hk1, hklen, ?_, by omega, fun j hj => by simpa using hmin j hj⟩
    simpa [readResponseWithLimit] using heq
  · intro h
    simpa [readResponseWithLimit] using
      readChunks_ok maxBytes chunks [] 0 0 (by omega)
  · intro h
    simp [readResponseWithLimit, if_pos h]
  · intro h
    simp only [readResponseWithLimit]
    rw [if_neg (by omega)]

/-- Witness for C3: a 5-byte stream against a 3-byte limit is cancelled
after two chunks; a 4-byte whole body against a 3-byte limit fails post
hoc. -/
theorem claim_C3_read_limit_witness :
    readResponseWithLimit (.stream [[1, 2], [3, 4], [5]]) 3
      = ⟨.error imageTooLargeErr, true, 2⟩
  ∧ readResponseWithLimit (.whole [1, 2, 3, 4]) 3
      = ⟨.error imageTooLargeErr, false, 0⟩ := by
  constructor
  · obtain ⟨k, -, -, heq, hover, hmin⟩ :=
      (claim_C3_read_limit [[1, 2], [3, 4], [5]] [1, 2, 3, 4] 3).1 (by decide)
    have hk : k = 2 := by
      rcases Nat.lt_or_ge k 2 with hlt | hge
      · exfalso
        interval_cases k <;> simp_all
      · rcases Nat.lt_or_ge 2 k with hgt | hle2
        · exfalso
          have := hmin 2 hgt
          simp at this
        · omega
    rw [hk] at heq
    exact heq
  · exact (claim_C3_read_limit [[1, 2], [3, 4], [5]] [1, 2, 3, 4] 3).2.2.1 (by decide)

/-- C1: for a hostname (not an IP literal) the validator resolves the
host and fails with the unsafe-host error as soon as any one of the
returned addresses is private — regardless of any public addresses also
present. -/
theorem claim_C1_rebinding_defense (dns : DnsOracle) (urlString : String)
    (u : JsUrl) (records : List String) (addr : String)
    (hparse : parseURL urlString = some u)
    (hproto : u.protocol = "https:" ∨ u.protocol = "http:")
    (hlocal : ¬ (strLower u.hostname = "localhost"
        ∨ strEndsWith (strLower u.hostname) ".local" = true
        ∨ strEndsWith (strLower u.hostname) ".localhost" = true))
    (hnotip : netIsIP (strLower u.hostname) = 0)
    (hdns : dns (strLower u.hostname) = some records)
    (haddr : addr ∈ records) (hpriv : isPrivateIpAddress addr = true) :
    assertPublicUrl dns urlString =
      .error (submissionError "photoUrl cannot target local/internal hosts.") := by
  have hne : ¬ records.length = 0 := by
    intro h0
    rw [List.length_eq_zero] at h0
    subst h0
    simp at haddr
  have hany : records.any isPrivateIpAddress = true := by
    rw [List.any_eq_true]
    exact ⟨addr, haddr, hpriv⟩
  simp only [assertPublicUrl, hparse]
  rw [if_neg (not_not_intro hproto), if_neg hlocal, if_neg (by rw [hnotip]; omega)]
  rw [hdns]
  simp only [if_neg hne, if_pos hany]

/-- Witness for C1: a host resolving to one public and one private
address is rejected. -/
theorem claim_C1_rebinding_defense_witness :
    assertPublicUrl
      (fun h => if h = "example.com" then
          some ["93.184.216.34", "10.0.0.5"] else none)
      "http://example.com/cat.jpg"
      = .error (submissionError "photoUrl cannot target local/internal hosts.") :=
  claim_C1_rebinding_defense _ _
    ⟨"http:", "example.com", "example.com", "/cat.jpg",
      "http://example.com/cat.jpg"⟩
    ["93.184.216.34", "10.0.0.5"] "10.0.0.5"
    (by decide) (Or.inr rfl) (by decide) (by decide) (by decide)
    (by decide) (by decide)

/-- An absolute redirect target wins in `new URL(location, base)`. -/
lemma resolveURL_absolute {location : String}
    (h : (parseURL location).isSome = true) (base : String) :
    resolveURL location base = location := by
  simp [resolveURL, h]

/-- One redirect hop of the fetch loop: validate the current URL, see a
302 with an absolute `Location`, and continue there with one less unit
of budget. -/
lemma fetchLoop_redirect_step (env : FetchEnv) (cur next : String)
    (fuel : Nat) (log : List String)
    (hval : assertPublicUrl env.dns cur = .ok cur)
    (hnet : env.net cur = .resp ⟨302, some next, none, none, .whole []⟩)
    (habs : (parseURL next).isSome = true) :
    fetchLoop env cur (fuel + 1) log = fetchLoop env next fuel (log ++ [cur]) := by
  simp only [fetchLoop, hval, hnet]
  rw [if_pos (by omega : 300 ≤ (302 : Nat) ∧ (302 : Nat) < 400)]
  rw [resolveURL_absolute habs]

/-- The terminal hop of the fetch loop: a 2xx response whose declared
length, MIME type and streamed body all pass yields the image. -/
lemma fetchLoop_success_step (env : FetchEnv) (cur : String)
    (r : HttpResponse) (fuel : Nat) (log : List String)
    (m : String) (buffer : List Nat)
    (hval : assertPublicUrl env.dns cur = .ok cur)
    (hnet : env.net cur = .resp r)
    (h2 : 200 ≤ r.status) (h3 : r.status < 300)
    (hcl : clExceeds r.contentLength = false)
    (hmime : sanitizeImageMimeType (r.contentType.getD "") = .ok m)
    (hread : (readResponseWithLimit r.body MAX_IMAGE_BYTES).result = .ok buffer)
    (hbuf : ¬ buffer.length = 0) :
    fetchLoop env cur (fuel + 1) log =
      (log ++ [cur], .ok ⟨buffer, m, getFilenameFromUrl cur m⟩) := by
  simp only [fetchLoop, hval, hnet]
  rw [if_neg (by omega : ¬ (300 ≤ r.status ∧ r.status < 400))]
  rw [if_neg (not_not_intro ⟨h2, h3⟩)]
  simp only [hcl, Bool.false_eq_true, if_false, hmime, hread, if_neg hbuf]

/-- C2: with the validator passing on every URL of the chain, a chain of
`MAX_REDIRECTS + 1 = 5` redirects exhausts the hop budget and fails with
the too-many-redirects error, while a chain of exactly 4 redirects
followed by a clean 2xx succeeds; in both cases the Host-Safety
Validator ran on every hop's URL in order, hop 0 included, as the
returned validation log shows. -/
theorem claim_C2_redirect_budget (env : FetchEnv) (u : Nat → String)
    (hclean : cleanText (u 0) = u 0) (hne : ¬ u 0 = "")
    (hval : ∀ i, i ≤ 4 → assertPublicUrl env.dns (u i) = .ok (u i))
    (habs : ∀ i, 1 ≤ i → i ≤ 5 → (parseURL (u i)).isSome = true) :
    ((∀ i, i ≤ 4 →
        env.net (u i) = .resp ⟨302, some (u (i + 1)), none, none, .whole []⟩) →
      fetchImageFromUrl env (u 0)
        = ([u 0, u 1, u 2, u 3, u 4],
           .error (submissionError "photoUrl has too many redirects.")))
  ∧ (∀ (r : HttpResponse) (m : String) (buffer : List Nat),
      (∀ i, i ≤ 3 →
        env.net (u i) = .resp ⟨302, some (u (i + 1)), none, none, .whole []⟩) →
      env.net (u 4) = .resp r →
      200 ≤ r.status → r.status < 300 →
      clExceeds r.contentLength = false →
      sanitizeImageMimeType (r.contentType.getD "") = .ok m →
      (readResponseWithLimit r.body MAX_IMAGE_BYTES).result = .ok buffer →
      ¬ buffer.length = 0 →
      fetchImageFromUrl env (u 0)
        = ([u 0, u 1, u 2, u 3, u 4],
           .ok ⟨buffer, m, getFilenameFromUrl (u 4) m⟩)) := by
  have hstart : fetchImageFromUrl env (u 0) = fetchLoop env (u 0) 5 [] := by
    simp only [fetchImageFromUrl, hclean, if_neg hne, MAX_REDIRECTS]
  constructor
  · intro hnet
    rw [hstart,
      fetchLoop_redirect_step env (u 0) (u 1) 4 [] (hval 0 (by omega))
        (hnet 0 (by omega)) (habs 1 (by omega) (by omega)),
      fetchLoop_redirect_step env (u 1) (u 2) 3 _ (hval 1 (by omega))
        (hnet 1 (by omega)) (habs 2 (by omega) (by omega)),
      fetchLoop_redirect_step env (u 2) (u 3) 2 _ (hval 2 (by omega))
        (hnet 2 (by omega)) (habs 3 (by omega) (by omega)),
      fetchLoop_redirect_step env (u 3) (u 4) 1 _ (hval 3 (by omega))
        (hnet 3 (by omega)) (habs 4 (by omega) (by omega)),
      fetchLoop_redirect_step env (u 4) (u 5) 0 _ (hval 4 (by omega))
        (hnet 4 (by omega)) (habs 5 (by omega) (by omega))]
    simp [fetchLoop]
  · intro r m buffer hnet hnet4 h2 h3 hcl hmime hread hbuf
    rw [hstart,
      fetchLoop_redirect_step env (u 0) (u 1) 4 [] (hval 0 (by omega))
        (hnet 0 (by omega)) (habs 1 (by omega) (by omega)),
      fetchLoop_redirect_step env (u 1) (u 2) 3 _ (hval 1 (by omega))
        (hnet 1 (by omega)) (habs 2 (by omega) (by omega)),
      fetchLoop_redirect_step env (u 2) (u 3) 2 _ (hval 2 (by omega))
        (hnet 2 (by omega)) (habs 3 (by omega) (by omega)),
      fetchLoop_redirect_step env (u 3) (u 4) 1 _ (hval 3 (by omega))
        (hnet 3 (by omega)) (habs 4 (by omega) (by omega)),
      fetchLoop_success_step env (u 4) r 0 _ m buffer (hval 4 (by omega))
        hnet4 h2 h3 hcl hmime hread hbuf]
    simp

/-- A concrete 6-URL chain on one public host. -/
def chainUrl : Nat → String
  | 0 => "http://chain.example/r0"
  | 1 => "http://chain.example/r1"
  | 2 => "http://chain.example/r2"
  | 3 => "http://chain.example/r3"
  | 4 => "http://chain.example/r4"
  | _ => "http://chain.example/r5"

/-- A DNS oracle resolving everything to one public address. -/
def chainDns : DnsOracle := fun _ => some ["93.184.216.34"]

/-- A transport where every chain URL redirects to the next. -/
def chainNetA : String → TransportOutcome := fun s =>
  if s = chainUrl 0 then .resp ⟨302, some (chainUrl 1), none, none, .whole []⟩
  else if s = chainUrl 1 then .resp ⟨302, some (chainUrl 2), none, none, .whole []⟩
  else if s = chainUrl 2 then .resp ⟨302, some (chainUrl 3), none, none, .whole []⟩
  else if s = chainUrl 3 then .resp ⟨302, some (chainUrl 4), none, none, .whole []⟩
  else if s = chainUrl 4 then .resp ⟨302, some (chainUrl 5), none, none, .whole []⟩
  else .netFailure

/-- A transport with 4 redirects and then a clean 200. -/
def chainNetB : String → TransportOutcome := fun s =>
  if s = chainUrl 0 then .resp ⟨302, some (chainUrl 1), none, none, .whole []⟩
  else if s = chainUrl 1 then .resp ⟨302, some (chainUrl 2), none, none, .whole []⟩
  else if s = chainUrl 2 then .resp ⟨302, some (chainUrl 3), none, none, .whole []⟩
  else if s = chainUrl 3 then .resp ⟨302, some (chainUrl 4), none, none, .whole []⟩
  else if s = chainUrl 4 then
    .resp ⟨200, none, some "image/png", some "2", .whole [7, 7]⟩
  else .netFailure

/-- Witness for C2: five redirects exhaust the budget, four redirects
then a 200 succeed, and the validation log lists all five hop URLs. -/
theorem claim_C2_redirect_budget_witness :
    fetchImageFromUrl ⟨chainDns, chainNetA⟩ (chainUrl 0)
      = ([chainUrl 0, chainUrl 1, chainUrl 2, chainUrl 3, chainUrl 4],
         .error (submissionError "photoUrl has too many redirects."))
  ∧ fetchImageFromUrl ⟨chainDns, chainNetB⟩ (chainUrl 0)
      = ([chainUrl 0, chainUrl 1, chainUrl 2, chainUrl 3, chainUrl 4],
         .ok ⟨[7, 7], "image/png", getFilenameFromUrl (chainUrl 4) "image/png"⟩) := by
  constructor
  · exact (claim_C2_redirect_budget ⟨chainDns, chainNetA⟩ chainUrl
      (by decide) (by decide) (by decide) (by decide)).1 (by decide)
  · exact (claim_C2_redirect_budget ⟨chainDns, chainNetB⟩ chainUrl
      (by decide) (by decide) (by decide) (by decide)).2
      ⟨200, none, some "image/png", some "2", .whole [7, 7]⟩ "image/png" [7, 7]
      (by decide) (by decide) (by decide) (by decide) (by decide) (by decide)
      (by decide) (by decide)

/-- A successful upload means Cloudinary answered 2xx with a
`secure_url`, which is the returned canonical URL. -/
lemma uploadToCloudinary_ok {env : HandlerEnv} {image : RemoteImage}
    {config : CloudinaryConfig} {url : String}
    (h : uploadToCloudinary env image config = .ok url) :
    env.cloudinary.ok = true ∧ env.cloudinary.secureUrl = some url := by
  simp only [uploadToCloudinary] at h
  split at h
  · exact Except.noConfusion h
  · rename_i hok
    refine ⟨by simpa using hok, ?_⟩
    split at h
    · exact Except.noConfusion h
    · rename_i u heq
      rw [heq]
      simpa using h

/-- The resolver performs no action or exactly one upload. -/
lemma resolveCanonicalPhotoUrl_acts (env : HandlerEnv) (photoUrl : String)
    (photoFile : Option PhotoFile) (config : CloudinaryConfig) :
    (resolveCanonicalPhotoUrl env photoUrl photoFile config).1 = []
      ∨ (resolveCanonicalPhotoUrl env photoUrl photoFile config).1 = [Action.upload] := by
  rcases photoFile with _ | pf <;> simp only [resolveCanonicalPhotoUrl]
  · split
    · simp
    · simp
  · split
    · simp
    · split
      · simp
      · simp

/-- A resolver success consists of exactly one successful upload whose
`secure_url` is the canonical URL. -/
lemma resolveCanonicalPhotoUrl_ok {env : HandlerEnv} {photoUrl : String}
    {photoFile : Option PhotoFile} {config : CloudinaryConfig}
    {acts : List Action} {url : String}
    (h : resolveCanonicalPhotoUrl env photoUrl photoFile config = (acts, .ok url)) :
    acts = [Action.upload] ∧ env.cloudinary.ok = true
      ∧ env.cloudinary.secureUrl = some url := by
  rcases photoFile with _ | pf <;> simp only [resolveCanonicalPhotoUrl] at h
  · split at h
    · rename_i heq
      rw [Prod.mk.injEq] at h
      exact absurd h.2.symm (by simp)
    · rename_i img heq
      rw [Prod.mk.injEq] at h
      obtain ⟨hl, hr⟩ := h
      obtain ⟨hok, hsec⟩ := uploadToCloudinary_ok hr
      exact ⟨hl.symm, hok, hsec⟩
  · split at h
    · rw [Prod.mk.injEq] at h
      obtain ⟨hl, hr⟩ := h
      obtain ⟨hok, hsec⟩ := uploadToCloudinary_ok hr
      exact ⟨hl.symm, hok, hsec⟩
    · split at h
      · rename_i heq
        rw [Prod.mk.injEq] at h
        exact absurd h.2.symm (by simp)
      · rename_i img heq
        rw [Prod.mk.injEq] at h
        obtain ⟨hl, hr⟩ := h
        obtain ⟨hok, hsec⟩ := uploadToCloudinary_ok hr
        exact ⟨hl.symm, hok, hsec⟩

/-- Any store write the handler performs sits right after the single
successful upload, writes the upload's `secure_url`, and a failed
Airtable answer surfaces as a 500. -/
lemma handler_storeWrite_shape (env : HandlerEnv) (event : Event)
    (p : AirtablePayload)
    (h : Action.storeWrite p ∈ (handler env event).actions) :
    (handler env event).actions = [Action.upload, Action.storeWrite p]
    ∧ env.cloudinary.ok = true
    ∧ env.cloudinary.secureUrl = some p.photoUrl
    ∧ (¬ env.airtableOk = some true → (handler env event).statusCode = 500) := by
  revert h
  unfold handler
  by_cases h1 : event.httpMethod ≠ "POST"
  · rw [if_pos h1]
    intro h
    simp at h
  rw [if_neg h1]
  by_cases h2 : env.airtableToken = "" ∨ env.airtableBaseId = ""
  · rw [if_pos h2]
    intro h
    simp at h
  rw [if_neg h2]
  rcases hp : parseBody event with pe | ⟨fields, pf⟩
  · rcases pe with e | _ <;> · intro h; simp at h
  dsimp only
  by_cases h3 : getField fields "website" ≠ ""
  · rw [if_pos h3]
    intro h
    simp at h
  rw [if_neg h3]
  by_cases h4 : cleanText (getField fields "catName") = ""
      ∨ cleanText (getField fields "humanName") = ""
  · rw [if_pos h4]
    intro h
    simp at h
  rw [if_neg h4]
  by_cases h5 : pf = none ∧ cleanText (getField fields "photoUrl") = ""
  · rw [if_pos h5]
    intro h
    simp at h
  rw [if_neg h5]
  rcases hc : getCloudinaryConfig env with e | config
  · intro h
    simp at h
  dsimp only
  rcases hr : resolveCanonicalPhotoUrl env
      (cleanText (getField fields "photoUrl")) pf config with ⟨acts, res⟩
  rcases res with e | url
  · intro h
    dsimp only at h
    rcases resolveCanonicalPhotoUrl_acts env
        (cleanText (getField fields "photoUrl")) pf config with ha | ha <;>
      rw [hr] at ha <;> dsimp only at ha <;> subst ha <;> simp at h
  intro h
  dsimp only at h ⊢
  obtain ⟨hacts, hok, hsec⟩ := resolveCanonicalPhotoUrl_ok hr
  subst hacts
  rcases hao : env.airtableOk with _ | b
  · rw [hao] at h
    dsimp only at h ⊢
    simp only [List.mem_append, List.mem_cons, List.not_mem_nil, or_false,
      List.mem_singleton] at h
    rcases h with h | h
    · exact absurd h (by simp)
    · rw [Action.storeWrite.injEq] at h
      subst h
      exact ⟨by simp, hok, hsec, fun _ => rfl⟩
  rcases b with _ | _
  · rw [hao] at h
    dsimp only at h ⊢
    simp only [List.mem_append, List.mem_cons, List.not_mem_nil, or_false,
      List.mem_singleton] at h
    rcases h with h | h
    · exact absurd h (by simp)
    · rw [Action.storeWrite.injEq] at h
      subst h
      exact ⟨by simp, hok, hsec, fun _ => rfl⟩
  · rw [hao] at h
    dsimp only at h ⊢
    by_cases h6 : strIncludes event.acceptHeader "application/json" = true
    · rw [if_pos h6] at h ⊢
      simp only [List.mem_append, List.mem_cons, List.not_mem_nil, or_false,
        List.mem_singleton] at h
      rcases h with h | h
      · exact absurd h (by simp)
      · rw [Action.storeWrite.injEq] at h
        subst h
        exact ⟨by simp, hok, hsec, fun hne => absurd rfl hne⟩
    · rw [if_neg h6] at h ⊢
      simp only [List.mem_append, List.mem_cons, List.not_mem_nil, or_false,
        List.mem_singleton] at h
      rcases h with h | h
      · exact absurd h (by simp)
      · rw [Action.storeWrite.injEq] at h
        subst h
        exact ⟨by simp, hok, hsec, fun hne => absurd rfl hne⟩

/-- C5: if the handler performed a store write at all, the whole run
performed exactly one upload followed by that single write, the upload
succeeded, and the written `Photo URL` is the canonical URL the upload
returned — so no failure anywhere in the pipeline can leave a partial
record behind. -/
theorem claim_C5_write_after_canonical (env : HandlerEnv) (event : Event)
    (p : AirtablePayload)
    (h : Action.storeWrite p ∈ (handler env event).actions) :
    (handler env event).actions = [Action.upload, Action.storeWrite p]
    ∧ env.cloudinary.ok = true
    ∧ env.cloudinary.secureUrl = some p.photoUrl := by
  obtain ⟨ha, hok, hsec, -⟩ := handler_storeWrite_shape env event p h
  exact ⟨ha, hok, hsec⟩

/-- An environment where every step of the pipeline succeeds. -/
def okEnv : HandlerEnv where
  airtableToken := "tok"
  airtableBaseId := "base"
  airtableTableName := ""
  cloudName := "cloud"
  apiKey := "key"
  apiSecret := "secret"
  folderVar := ""
  dns := chainDns
  net := fun _ => .resp ⟨200, none, some "image/png", some "3", .whole [9, 9, 9]⟩
  cloudinary := ⟨true, some "https://res.cloudinary.example/cat.png"⟩
  airtableOk := some true
  airtableErrorDetails := ""

/-- A well-formed URL-encoded submission pointing at a public host. -/
def okEvent : Event where
  httpMethod := "POST"
  contentTypeHeader := "application/x-www-form-urlencoded"
  acceptHeader := ""
  multipartEntries := none
  jsonFields := none
  urlencodedFields :=
    [("catName", "Tom"), ("humanName", "Ana"),
     ("photoUrl", "http://chain.example/r4")]

/-- The record `okEvent` produces under `okEnv`. -/
def okPayload : AirtablePayload :=
  ⟨"Tom", "Ana", "", "https://res.cloudinary.example/cat.png", "", "Pending"⟩

/-- Witness for C5: the successful run writes exactly once, after the
upload, with the canonical URL. -/
theorem claim_C5_write_after_canonical_witness :
    (handler okEnv okEvent).actions = [Action.upload, Action.storeWrite okPayload]
    ∧ okEnv.cloudinary.secureUrl = some okPayload.photoUrl := by
  obtain ⟨ha, -, hsec⟩ :=
    claim_C5_write_after_canonical okEnv okEvent okPayload (by decide)
  exact ⟨ha, hsec⟩

/-- A multipart submission whose file declares `text/html`. -/
def mimeCexEvent : Event where
  httpMethod := "POST"
  contentTypeHeader := "multipart/form-data; boundary=x"
  acceptHeader := ""
  multipartEntries := some
    [("catName", .str "T"), ("humanName", .str "A"),
     ("photoFile", .file ⟨"x.html", "text/html", 4, [1, 2, 3, 4]⟩)]
  jsonFields := none
  urlencodedFields := []

/-- Counterexample to C6 as stated: an unsupported media type is
answered with status 400, not 415 — `SubmissionError`'s default status
is 400 and the MIME gate never overrides it. -/
theorem claim_C6_counterexample :
    handler okEnv mimeCexEvent
      = ⟨400, "Only JPEG, PNG, WEBP, GIF, and AVIF images are allowed.", [], []⟩
    ∧ ¬ (handler okEnv mimeCexEvent).statusCode = 415 := by decide

/-- A `readChunks` failure always carries the 413 error. -/
lemma readChunks_error (maxBytes : Nat) :
    ∀ (chunks : List (List Nat)) (acc : List Nat) (total n : Nat) (e : Err),
      (readChunks maxBytes chunks acc total n).result = .error e →
      e = imageTooLargeErr
  | [], _, _, _, _, h => Except.noConfusion h
  | c :: rest, acc, total, n, e, h => by
    simp only [readChunks] at h
    split at h
    · simpa using h.symm
    · exact readChunks_error maxBytes rest (acc ++ c) (total + c.length) (n + 1) e h

/-- C6 (amended): the status codes the implementation actually assigns —
400 for validation failures including unsupported media types, 413 for
too-large images, 500 for configuration and store-write failures, 502
for upload failures. -/
theorem claim_C6_amended_status_codes :
    (∀ raw e, sanitizeImageMimeType raw = .error e → e.statusCode = 400)
  ∧ (∀ body maxBytes e,
      (readResponseWithLimit body maxBytes).result = .error e → e.statusCode = 413)
  ∧ (∀ env e, getCloudinaryConfig env = .error e → e.statusCode = 500)
  ∧ (∀ env image config e,
      uploadToCloudinary env image config = .error e → e.statusCode = 502)
  ∧ (∀ env event p, Action.storeWrite p ∈ (handler env event).actions →
      ¬ env.airtableOk = some true → (handler env event).statusCode = 500) := by
  refine ⟨?_, ?_, ?_, ?_, ?_⟩
  · intro raw e h
    rw [sanitizeImageMimeType_eq] at h
    split at h
    · exact Except.noConfusion h
    · rw [show e = unsupportedMediaErr by simpa using h.symm]
      rfl
  · intro body maxBytes e h
    rcases body with chunks | bytes
    · exact (readChunks_error maxBytes chunks [] 0 0 e h) ▸ rfl
    · simp only [readResponseWithLimit] at h
      split at h
      · rw [show e = imageTooLargeErr by simpa using h.symm]
        rfl
      · exact Except.noConfusion h
  · intro env e h
    simp only [getCloudinaryConfig] at h
    split at h
    · rw [show e = submissionErrorWith "Missing Cloudinary configuration." 500
          by simpa using h.symm]
      rfl
    · exact Except.noConfusion h
  · intro env image config e h
    simp only [uploadToCloudinary] at h
    split at h
    · rw [show e = submissionErrorWith "Image upload to Cloudinary failed." 502
          by simpa using h.symm]
      rfl
    · split at h
      · rw [show e = submissionErrorWith "Cloudinary response missing secure_url." 502
            by simpa using h.symm]
        rfl
      · exact Except.noConfusion h
  · intro env event p hmem hne
    exact (handler_storeWrite_shape env event p hmem).2.2.2 hne

/-- The successful environment with a failing Airtable write. -/
def airtableFailEnv : HandlerEnv := { okEnv with airtableOk := some false }

/-- The successful environment with Cloudinary unconfigured. -/
def noCloudEnv : HandlerEnv := { okEnv with cloudName := "" }

/-- The successful environment with Cloudinary refusing the upload. -/
def uploadFailEnv : HandlerEnv := { okEnv with cloudinary := ⟨false, none⟩ }

/-- Witness for C6's amended theorem: each failure kind evaluated at a
concrete input carries its assigned status code. -/
theorem claim_C6_amended_status_codes_witness :
    unsupportedMediaErr.statusCode = 400
  ∧ imageTooLargeErr.statusCode = 413
  ∧ (submissionErrorWith "Missing Cloudinary configuration." 500).statusCode = 500
  ∧ (submissionErrorWith "Image upload to Cloudinary failed." 502).statusCode = 502
  ∧ (handler airtableFailEnv okEvent).statusCode = 500 := by
  refine ⟨?_, ?_, ?_, ?_, ?_⟩
  · exact claim_C6_amended_status_codes.1 "text/html" unsupportedMediaErr (by decide)
  · exact claim_C6_amended_status_codes.2.1 (.whole [1, 2]) 1 imageTooLargeErr
      (by decide)
  · exact claim_C6_amended_status_codes.2.2.1 noCloudEnv
      (submissionErrorWith "Missing Cloudinary configuration." 500) (by decide)
  · exact claim_C6_amended_status_codes.2.2.2.1 uploadFailEnv
      ⟨[1], "image/png", "x.png"⟩ ⟨"c", "k", "s", "f"⟩
      (submissionErrorWith "Image upload to Cloudinary failed." 502) (by decide)
  · exact claim_C6_amended_status_codes.2.2.2.2 airtableFailEnv okEvent okPayload
      (by decide) (by decide)

/-- C8: once the body parses, a non-empty honeypot `website` field makes
the handler return the success-shaped 303 redirect with no upload and no
store write. -/
theorem claim_C8_honeypot (env : HandlerEnv) (event : Event)
    (fields : Fields) (pf : Option PhotoFile)
    (hm : event.httpMethod = "POST")
    (ht : ¬ env.airtableToken = "") (hb : ¬ env.airtableBaseId = "")
    (hp : parseBody event = .ok (fields, pf))
    (hw : ¬ getField fields "website" = "") :
    handler env event = ⟨303, "", [("Location", "/thanks/")], []⟩ := by
  unfold handler
  rw [if_neg (not_not_intro hm), if_neg (by rintro (h | h); exacts [ht h, hb h]), hp]
  dsimp only
  rw [if_pos hw]

/-- A parsed submission with the honeypot filled. -/
def honeypotEvent : Event where
  httpMethod := "POST"
  contentTypeHeader := "application/x-www-form-urlencoded"
  acceptHeader := ""
  multipartEntries := none
  jsonFields := none
  urlencodedFields :=
    [("catName", "Tom"), ("humanName", "Ana"),
     ("photoUrl", "http://chain.example/r4"), ("website", "spam")]

/-- Witness for C8: the honeypot submission gets the silent redirect and
the handler performs no actions. -/
theorem claim_C8_honeypot_witness :
    handler okEnv honeypotEvent = ⟨303, "", [("Location", "/thanks/")], []⟩ :=
  claim_C8_honeypot okEnv honeypotEvent
    [("catName", "Tom"), ("humanName", "Ana"),
     ("photoUrl", "http://chain.example/r4"), ("website", "spam")] none
    (by decide) (by decide) (by decide) (by decide) (by decide)

/-- When every file entry has size zero, the multipart loop ignores them
all and the photo file stays as it started. -/
lemma parseMultipartEntries_zero_files :
    ∀ (entries : List (String × FormValue)) (fields0 : Fields)
      (pf0 : Option PhotoFile),
      (∀ k f, (k, FormValue.file f) ∈ entries → f.size = 0) →
      ∃ fields, parseMultipartEntries entries fields0 pf0 = .ok (fields, pf0)
  | [], fields0, _, _ => ⟨fields0, rfl⟩
  | (k, .str v) :: rest, fields0, pf0, h => by
    obtain ⟨fields, hf⟩ := parseMultipartEntries_zero_files rest
      (setField fields0 k v) pf0
      (fun k' f' hm => h k' f' (List.mem_cons_of_mem _ hm))
    exact ⟨fields, hf⟩
  | (k, .file f) :: rest, fields0, pf0, h => by
    have hsz : f.size = 0 := h k f (List.mem_cons_self _ _)
    obtain ⟨fields, hf⟩ := parseMultipartEntries_zero_files rest fields0 pf0
      (fun k' f' hm => h k' f' (List.mem_cons_of_mem _ hm))
    refine ⟨fields, ?_⟩
    simp only [parseMultipartEntries, if_pos (Or.inr hsz)]
    exact hf

/-- C10: a multipart submission whose uploaded `photoFile` entries all
have size zero parses with no photo file at all, and if the `photoUrl`
field is empty too the handler fails with the 400 missing-photo-source
error instead of processing the empty file. -/
theorem claim_C10_zero_size_file (env : HandlerEnv) (event : Event)
    (entries : List (String × FormValue)) (fields : Fields)
    (pf : Option PhotoFile)
    (hct : strIncludes event.contentTypeHeader "multipart/form-data" = true)
    (hent : event.multipartEntries = some entries)
    (hsz : ∀ k f, (k, FormValue.file f) ∈ entries → f.size = 0)
    (hp : parseBody event = .ok (fields, pf)) :
    pf = none
  ∧ (event.httpMethod = "POST" → ¬ env.airtableToken = "" →
      ¬ env.airtableBaseId = "" →
      getField fields "website" = "" →
      ¬ cleanText (getField fields "catName") = "" →
      ¬ cleanText (getField fields "humanName") = "" →
      cleanText (getField fields "photoUrl") = "" →
      handler env event = ⟨400, "Provide either photoFile or photoUrl.", [], []⟩) := by
  have hpf : pf = none := by
    obtain ⟨fields', hf⟩ := parseMultipartEntries_zero_files entries [] none hsz
    simp only [parseBody, hct, if_pos, hent, hf] at hp
    exact (Prod.mk.injEq _ _ _ _ ▸ Except.ok.inj hp).2.symm
  subst hpf
  refine ⟨rfl, ?_⟩
  intro hm ht hb hweb hcat hhum hpu
  unfold handler
  rw [if_neg (not_not_intro hm),
    if_neg (by rintro (hx | hx); exacts [ht hx, hb hx]), hp]
  dsimp only
  rw [if_neg (not_not_intro hweb),
    if_neg (by rintro (hx | hx); exacts [hcat hx, hhum hx]),
    if_pos ⟨rfl, hpu⟩]

/-- A multipart submission whose only file input is empty. -/
def zeroFileEvent : Event where
  httpMethod := "POST"
  contentTypeHeader := "multipart/form-data; boundary=x"
  acceptHeader := ""
  multipartEntries := some
    [("catName", .str "Tom"), ("humanName", .str "Ana"),
     ("photoFile", .file ⟨"c.png", "image/png", 0, []⟩)]
  jsonFields := none
  urlencodedFields := []

/-- Witness for C10: the empty file is ignored and, with no `photoUrl`
either, the submission fails with the 400 missing-photo-source error. -/
theorem claim_C10_zero_size_file_witness :
    handler okEnv zeroFileEvent
      = ⟨400, "Provide either photoFile or photoUrl.", [], []⟩ := by
  have h := claim_C10_zero_size_file okEnv zeroFileEvent
    [("catName", .str "Tom"), ("humanName", .str "Ana"),
     ("photoFile", .file ⟨"c.png", "image/png", 0, []⟩)]
    [("catName", "Tom"), ("humanName", "Ana")] none
    (by decide) (by decide)
    (by
      intro k f hm
      simp only [List.mem_cons, List.not_mem_nil, or_false] at hm
      rcases hm with hx | hx | hx <;> simp_all)
    (by decide)
  exact h.2 (by decide) (by decide) (by decide) (by decide) (by decide)
    (by decide) (by decide)

/-- Inserting into the sorted model is a permutation of consing. -/
lemma jsOrderedInsert_perm (leB : α → α → Bool) (x : α) :
    ∀ l : List α, (jsOrderedInsert leB x l).Perm (x :: l)
  | [] => List.Perm.refl _
  | y :: ys => by
    simp only [jsOrderedInsert]
    split
    · exact List.Perm.refl _
    · exact ((jsOrderedInsert_perm leB x ys).cons y).trans (List.Perm.swap x y ys)

/-- The sort model permutes its input. -/
lemma jsSort_perm (leB : α → α → Bool) :
    ∀ l : List α, (jsSort leB l).Perm l
  | [] => List.Perm.refl _
  | x :: xs =>
    (jsOrderedInsert_perm leB x (jsSort leB xs)).trans
      ((jsSort_perm leB xs).cons x)

/-- Insertion preserves sortedness when the comparator is transitive and
total on the elements involved. -/
lemma jsOrderedInsert_pairwise {α : Type} {P : α → Prop} {leB : α → α → Bool}
    (htr : ∀ a b c, P a → P b → P c →
      leB a b = true → leB b c = true → leB a c = true)
    (hto : ∀ a b, P a → P b → leB a b = true ∨ leB b a = true)
    (x : α) (hx : P x) :
    ∀ l : List α, (∀ a ∈ l, P a) →
      l.Pairwise (fun a b => leB a b = true) →
      (jsOrderedInsert leB x l).Pairwise (fun a b => leB a b = true)
  | [], _, _ => by simp [jsOrderedInsert]
  | y :: ys, hP, hsort => by
    have hy : P y := hP y (List.mem_cons_self y ys)
    rcases List.pairwise_cons.mp hsort with ⟨hyge, hys⟩
    simp only [jsOrderedInsert]
    split
    · rename_i hxy
      refine List.pairwise_cons.mpr ⟨?_, hsort⟩
      intro b hb
      rcases List.mem_cons.mp hb with rfl | hb
      · exact hxy
      · exact htr x y b hx hy (hP b (List.mem_cons_of_mem _ hb)) hxy (hyge b hb)
    · rename_i hxy
      have hyx : leB y x = true := by
        rcases hto x y hx hy with hx' | hx'
        · exact absurd hx' hxy
        · exact hx'
      refine List.pairwise_cons.mpr ⟨?_, ?_⟩
      · intro b hb
        have hb' := (jsOrderedInsert_perm leB x ys).mem_iff.mp hb
        rcases List.mem_cons.mp hb' with rfl | hb''
        · exact hyx
        · exact hyge b hb''
      · exact jsOrderedInsert_pairwise htr hto x hx ys
          (fun a ha => hP a (List.mem_cons_of_mem _ ha)) hys

/-- The sort model sorts, when the comparator is transitive and total on
the list's elements. -/
lemma jsSort_pairwise {α : Type} {P : α → Prop} {leB : α → α → Bool}
    (htr : ∀ a b c, P a → P b → P c →
      leB a b = true → leB b c = true → leB a c = true)
    (hto : ∀ a b, P a → P b → leB a b = true ∨ leB b a = true) :
    ∀ l : List α, (∀ a ∈ l, P a) →
      (jsSort leB l).Pairwise (fun a b => leB a b = true)
  | [], _ => by simp [jsSort]
  | x :: xs, hP => by
    simp only [jsSort]
    exact jsOrderedInsert_pairwise htr hto x (hP x (List.mem_cons_self x xs))
      (jsSort leB xs)
      (fun a ha =>
        hP a (List.mem_cons_of_mem _ ((jsSort_perm leB xs).mem_iff.mp ha)))
      (jsSort_pairwise htr hto xs
        (fun a ha => hP a (List.mem_cons_of_mem _ ha)))

/-- C9: when every row's creation time parses, the rendered set contains
no row with an empty photo URL, is sorted newest-first by parsed
creation time, and is exactly (up to the sort's reordering) the mapped
rows whose photo URL is non-empty. -/
theorem claim_C9_rendered_rows (dateParse : DateParse)
    (records : List AirtableRecord)
    (h : ∀ r ∈ records, (dateParse (r.createdTime.getD "")).isSome = true) :
    (∀ c ∈ catsTransform dateParse records, ¬ c.photoUrl = "")
  ∧ (catsTransform dateParse records).Pairwise
      (fun a b => ∀ x y, dateParse a.createdTime = some x →
          dateParse b.createdTime = some y → y ≤ x)
  ∧ (catsTransform dateParse records).Perm
      ((records.map toCatRow).filter (fun c => c.photoUrl ≠ "")) := by
  have hmem : ∀ a ∈ records.map toCatRow,
      (dateParse a.createdTime).isSome = true := by
    intro a ha
    obtain ⟨r, hr, rfl⟩ := List.mem_map.mp ha
    exact h r hr
  refine ⟨?_, ?_, ?_⟩
  · intro c hc
    have := (List.mem_filter.mp hc).2
    simpa using this
  · have hsorted := @jsSort_pairwise CatRow
      (fun a : CatRow => (dateParse a.createdTime).isSome = true)
      (catLe dateParse)
      (by
        intro a b c ha hb hc hab hbc
        rw [Option.isSome_iff_exists] at ha hb hc
        obtain ⟨x, hx⟩ := ha
        obtain ⟨y, hy⟩ := hb
        obtain ⟨z, hz⟩ := hc
        simp only [catLe, catCompare, hx, hy, hz, decide_eq_true_eq] at hab hbc ⊢
        omega)
      (by
        intro a b ha hb
        rw [Option.isSome_iff_exists] at ha hb
        obtain ⟨x, hx⟩ := ha
        obtain ⟨y, hy⟩ := hb
        simp only [catLe, catCompare, hx, hy, decide_eq_true_eq]
        omega)
      (records.map toCatRow) hmem
    have hfiltered := hsorted.filter (fun c : CatRow => decide (c.photoUrl ≠ ""))
    refine hfiltered.imp ?_
    intro a b hle x y hx hy
    simp only [catLe, catCompare, hx, hy, decide_eq_true_eq] at hle
    omega
  · exact (jsSort_perm (catLe dateParse) (records.map toCatRow)).filter _

/-- A creation-time parser for the witness: decimal strings only. -/
def witDateParse : DateParse := fun s =>
  if s.toList ≠ [] ∧ s.toList.all (fun c => decide ('0' ≤ c ∧ c ≤ '9')) then
    some (Int.ofNat (digitsToNat s.toList))
  else none

/-- Three store rows: two with photos (created at times 2 and 1), one
without a photo (created at time 3). -/
def witRecords : List AirtableRecord :=
  [⟨"r1", some "2", some "A", some "B", none, some "http://p/1.png", none⟩,
   ⟨"r2", some "3", some "C", some "D", none, none, none⟩,
   ⟨"r3", some "1", some "E", some "F", none, some "http://p/3.png", none⟩]

/-- Witness for C9: the photo-less row is excluded and the rest keep
only non-empty photo URLs, as a permutation of the filtered map. -/
theorem claim_C9_rendered_rows_witness :
    (∀ c ∈ catsTransform witDateParse witRecords, ¬ c.photoUrl = "")
  ∧ (catsTransform witDateParse witRecords).Perm
      ((witRecords.map toCatRow).filter (fun c => c.photoUrl ≠ "")) := by
  obtain ⟨h1, -, h3⟩ := claim_C9_rendered_rows witDateParse witRecords (by decide)
  exact ⟨h1, h3⟩

end Catsof
